import Mathlib

/-!
Shallow embedding of the behavior-tree engine in `src/behavior_trees/src/`
(`behavior-tree.hpp`, `game-ai.hpp`, `steering.hpp`, `entity.hpp`, `world.hpp`)
and proofs about it.

Modelling conventions:
* C++ `float` quantities (positions, hunger, radii) are embedded as `ℚ`.
  A comparison `Vector2Distance(a,b) < r` (with `r ≥ 0`) is embedded as the
  equivalent squared comparison `distSqr a b < r*r`, avoiding square roots.
* Mutation of `Context&` (the agent and the world) becomes explicit state
  passing: a leaf function takes the entity and world and returns the status
  together with the updated entity and world.
* Each composite's tick additionally returns a ghost `trace`: the indices of
  its *direct* children that it ticked, in order.  The status/entity/world
  components are the translation of the C++; the trace is instrumentation
  recording which child ticks occurred, used by theorems about short-circuit
  and resumption behavior.  A parent ignores the traces of its children,
  exactly as the C++ only observes the returned `Status`.
* `Entity`'s `velocity` and `acceleration` fields are omitted: they are only
  ever *written* by leaves through the steering formulas (which involve
  `Vector2Normalize`, i.e. a square root, and are declared out of scope by the
  spec, §1), and no tick decision ever reads them.  The vectors handed to
  normalization are modelled separately (see `steer_seek_normalize_arg`,
  `steer_flee_normalize_arg`) for the zero-length-direction claims.
* Out-of-range accesses that are undefined behavior in C++ (`bt_mem[slot]`
  with a bad slot, `waypoints[i]` with a bad index) are modelled by the total
  functions `List.getD` / `List.set` (reads default, writes are dropped); all
  claims about in-range behavior carry the in-range facts they need.
-/

namespace BT

/-- Status from behavior-tree.hpp line 6: `enum class Status{ Success, Failure, Running }`. -/
inductive Status where
  | Success
  | Failure
  | Running
deriving Repr, DecidableEq

/-- Two-component vector (raymath `Vector2`), with `ℚ` components standing in for `float`. -/
structure Vector2 where
  x : ℚ
  y : ℚ
deriving Repr, DecidableEq

/-- Componentwise subtraction (raymath `Vector2Subtract`, the `-` used in steering.hpp). -/
def Vector2.sub (a b : Vector2) : Vector2 := ⟨a.x - b.x, a.y - b.y⟩

/-- Squared length of a vector (raymath `Vector2LengthSqr`). -/
def lengthSqr (v : Vector2) : ℚ := v.x * v.x + v.y * v.y

/-- Squared distance between two points; `Vector2Distance(a,b) ⊲ r` with `r ≥ 0` is
embedded as `distSqr a b ⊲ r*r`. -/
def distSqr (a b : Vector2) : ℚ := lengthSqr (a.sub b)

/-- Stage constants from common.hpp lines 22-29. -/
def STAGE_WIDTH : ℚ := 1280

/-- Stage height from common.hpp. -/
def STAGE_HEIGHT : ℚ := 720

/-- Entity size from common.hpp line 29. -/
def ENTITY_SIZE : ℚ := 10

/-- The agent state, from entity.hpp lines 4-23.  Fields the tick logic reads or
writes are kept; `velocity`/`acceleration` are omitted (write-only through the
out-of-scope steering formulas, see file header).  The randomized initializers of
the source (`GetRandomValue`, `random_range`) are replaced by fixed defaults;
theorems quantify over the fields. -/
structure Entity where
  waypoint_index : Int := 0
  bt_mem : List Int := List.replicate 8 0
  hunger : ℚ := 0
  isHungry : Bool := false
  debug_state : String := "None"
  position : Vector2 := ⟨0, 0⟩
deriving Repr, DecidableEq

/-- Shared world state, from world.hpp lines 4-18. -/
structure World where
  food_pos : Vector2 := ⟨320, 360⟩
  wolf_pos : Vector2 := ⟨960, 360⟩
  wolf_active : Bool := true
  waypoints : List Vector2 :=
    [⟨100, 100⟩, ⟨1180, 100⟩, ⟨1180, 620⟩, ⟨100, 620⟩]
deriving Repr, DecidableEq

/-- World::waypoint_radius (world.hpp line 6). -/
def World.waypoint_radius : ℚ := 18

/-- World::food_radius (world.hpp line 7). -/
def World.food_radius : ℚ := 16

/-- Result of ticking a node: the returned `Status`, the updated agent and world
(the mutations done through `Context&`), and the ghost trace of direct-children
indices ticked by this node (empty for a leaf). -/
structure TickRes where
  status : Status
  self : Entity
  world : World
  trace : List Nat
deriving Repr, DecidableEq

/-- LeafFn from behavior-tree.hpp line 95: `Status(*)(Context&, float)`, with the
`Context&` mutation made explicit in the result. -/
abbrev LeafFn := Float → Entity → World → Status × Entity × World

/-- A node's tick capability (`Node::tick`, behavior-tree.hpp line 16).  The C++
uses virtual dispatch over `Node*`; the embedding passes each node's tick
function directly (the closed variant set is polymorphic over this capability). -/
abbrev NodeFn := Float → Entity → World → TickRes

/-- Leaf::tick (behavior-tree.hpp lines 97-101): calls the wrapped function. -/
def Leaf.tick (fn : LeafFn) : NodeFn := fun dt e w =>
  let p := fn dt e w
  ⟨p.1, p.2.1, p.2.2, []⟩

/-- Loop of Sequence::tick (behavior-tree.hpp lines 27-34): tick children left to
right; Running or Failure short-circuits, all Success gives Success.  The extra
`Nat` argument is the index of the first remaining child, used only for the trace. -/
def seqGo (dt : Float) : List NodeFn → Nat → Entity → World → TickRes
  | [], _, e, w => ⟨.Success, e, w, []⟩
  | c :: rest, i, e, w =>
    let r := c dt e w
    match r.status with
    | .Running => ⟨.Running, r.self, r.world, [i]⟩
    | .Failure => ⟨.Failure, r.self, r.world, [i]⟩
    | .Success =>
      let r2 := seqGo dt rest (i + 1) r.self r.world
      ⟨r2.status, r2.self, r2.world, i :: r2.trace⟩

/-- Sequence::tick (behavior-tree.hpp lines 27-34). -/
def Sequence.tick (children : List NodeFn) : NodeFn := fun dt e w =>
  seqGo dt children 0 e w

/-- Loop of Selector::tick (behavior-tree.hpp lines 45-52): tick children left to
right; Running or Success short-circuits, all Failure gives Failure. -/
def selGo (dt : Float) : List NodeFn → Nat → Entity → World → TickRes
  | [], _, e, w => ⟨.Failure, e, w, []⟩
  | c :: rest, i, e, w =>
    let r := c dt e w
    match r.status with
    | .Running => ⟨.Running, r.self, r.world, [i]⟩
    | .Success => ⟨.Success, r.self, r.world, [i]⟩
    | .Failure =>
      let r2 := selGo dt rest (i + 1) r.self r.world
      ⟨r2.status, r2.self, r2.world, i :: r2.trace⟩

/-- Selector::tick (behavior-tree.hpp lines 45-52). -/
def Selector.tick (children : List NodeFn) : NodeFn := fun dt e w =>
  selGo dt children 0 e w

/-- Read `ctx.self.bt_mem[slot]` (behavior-tree.hpp line 65).  An out-of-range
slot is undefined behavior in C++ (`std::array::operator[]` is unchecked);
modelled as reading the default 0. -/
def getSlot (e : Entity) (slot : Nat) : Int := e.bt_mem.getD slot 0

/-- Write `ctx.self.bt_mem[slot] = v`.  An out-of-range write (undefined behavior
in C++) is modelled as a no-op (`List.set` out of range). -/
def setSlot (e : Entity) (slot : Nat) (v : Int) : Entity :=
  { e with bt_mem := e.bt_mem.set slot v }

/-- Loop of MemorySequence::tick (behavior-tree.hpp lines 64-79).  In the C++ the
loop variable `i` is a reference into `bt_mem[slot]`, so every `++i` and every
reset is an immediate write to the agent's slot; the embedding mirrors each of
those writes (`setSlot … (i+1)` after a child Success, `setSlot … 0` on Failure
or on exhausting the children).  `rest` is the suffix `children.drop i` still to
run.  (Faithful provided no descendant writes this same slot mid-loop, which no
tree in the repository does.) -/
def msGo (slot : Nat) (dt : Float) : List NodeFn → Nat → Entity → World → TickRes
  | [], _, e, w => ⟨.Success, setSlot e slot 0, w, []⟩
  | c :: rest, i, e, w =>
    let r := c dt e w
    match r.status with
    | .Running => ⟨.Running, r.self, r.world, [i]⟩
    | .Failure => ⟨.Failure, setSlot r.self slot 0, r.world, [i]⟩
    | .Success =>
      let r2 := msGo slot dt rest (i + 1) (setSlot r.self slot (i + 1)) r.world
      ⟨r2.status, r2.self, r2.world, i :: r2.trace⟩

/-- MemorySequence::tick (behavior-tree.hpp lines 64-79): resume from the child
index stored in the agent's memory slot.  The stored `int` is clamped to `Nat`
(`Int.toNat`); a negative stored index would be undefined behavior in C++ and the
slot only ever holds child indices. -/
def MemorySequence.tick (slot : Nat) (children : List NodeFn) : NodeFn := fun dt e w =>
  let i := (getSlot e slot).toNat
  msGo slot dt (children.drop i) i e w

/-- RepeatForever::tick (behavior-tree.hpp lines 86-89): tick the single child,
discard its status (`std::ignore = …`, its state mutations persist), return Running. -/
def RepeatForever.tick (child : NodeFn) : NodeFn := fun dt e w =>
  let r := child dt e w
  ⟨.Running, r.self, r.world, [0]⟩

/-- EntityBrain::tick (behavior-tree.hpp lines 103-109): `assert(root)` then tick
the root.  The assert firing on a missing root (a loud abort) is modelled as the
absence of a result (`none`). -/
def EntityBrain.tick (root : Option NodeFn) : Float → Entity → World → Option TickRes :=
  fun dt e w =>
    match root with
    | none => none
    | some r => some (r dt e w)

/-- Modelled from the spec: `random_range(lo, hi)` draws from the raylib RNG,
which the spec (§1) declares an out-of-scope external collaborator.  Modelled as
returning the lower bound of the range; no claim reads the drawn value (the only
use is the hunger reset inside `DoSeekFood`). -/
def random_range (lo hi : ℚ) : ℚ := lo + (hi - lo) * 0

/-- From steer_seek (steering.hpp lines 5-9): the vector handed to
`Vector2Normalize`, namely `targetPos - e.position`, with no zero-length guard. -/
def steer_seek_normalize_arg (e_pos targetPos : Vector2) : Vector2 :=
  targetPos.sub e_pos

/-- From steer_flee (steering.hpp lines 11-17): the vector handed to
`Vector2Normalize`.  `d = e.position - threatPos` is replaced by `(1,0)` when
`Vector2LengthSqr(d) < 0.0001f`, i.e. the leaf-side zero-length guard. -/
def steer_flee_normalize_arg (e_pos threatPos : Vector2) : Vector2 :=
  let d := e_pos.sub threatPos
  if lengthSqr d < 1 / 10000 then ⟨1, 0⟩ else d

/-- The vector DoFlee (game-ai.hpp lines 25-31) hands to normalization via
`steer_flee(entity, ctx.world.wolf_pos, …)`. -/
def DoFlee_normalize_arg (e : Entity) (w : World) : Vector2 :=
  steer_flee_normalize_arg e.position w.wolf_pos

/-- The vector DoSeekFood (game-ai.hpp line 60) hands to normalization via
`steer_seek(entity, ctx.world.food_pos, …)`. -/
def DoSeekFood_normalize_arg (e : Entity) (w : World) : Vector2 :=
  steer_seek_normalize_arg e.position w.food_pos

/-- The `waypoints[entity.waypoint_index]` read performed by MoveToCorner
(game-ai.hpp line 36).  The C++ access is unchecked (undefined behavior out of
range); modelled with `List.getD`, with negative indices clamped by `Int.toNat`. -/
def waypointTarget (e : Entity) (w : World) : Vector2 :=
  w.waypoints.getD e.waypoint_index.toNat ⟨0, 0⟩

/-- The vector MoveToCorner (game-ai.hpp line 40) hands to normalization via
`steer_seek(entity, target, …)` with `target = waypoints[waypoint_index]`. -/
def MoveToCorner_normalize_arg (e : Entity) (w : World) : Vector2 :=
  steer_seek_normalize_arg e.position (waypointTarget e w)

/-- ThreatNearby (game-ai.hpp lines 7-12): Failure if the wolf is inactive,
Success iff the wolf is closer than 180. -/
def ThreatNearby : LeafFn := fun _ e w =>
  if !w.wolf_active then (.Failure, e, w)
  else if distSqr e.position w.wolf_pos < 180 * 180 then (.Success, e, w)
  else (.Failure, e, w)

/-- CheckHunger (game-ai.hpp lines 14-23): hysteresis on the hunger level
(becomes hungry above 0.95, stops being hungry below 0.05), then reports the
`isHungry` flag.  The second test reads the flag already updated by the first,
as in the C++. -/
def CheckHunger : LeafFn := fun _ e w =>
  let e1 := if !e.isHungry && decide (e.hunger > 95 / 100) then
    { e with isHungry := true } else e
  let e2 := if e1.isHungry && decide (e1.hunger < 5 / 100) then
    { e1 with isHungry := false } else e1
  (if e2.isHungry then .Success else .Failure, e2, w)

/-- DoFlee (game-ai.hpp lines 25-31): set the debug tag and return Running.  The
acceleration writes (steering, out of scope §1) are omitted; the vector it would
normalize is `DoFlee_normalize_arg`. -/
def DoFlee : LeafFn := fun _ e w =>
  (.Running, { e with debug_state := "FLEE" }, w)

/-- MoveToCorner (game-ai.hpp lines 33-47): steer toward
`waypoints[waypoint_index]` (acceleration writes omitted, see `DoFlee`), Success
iff the distance to it is at most `World::waypoint_radius`, else Running.  The
C++ `waypoints[entity.waypoint_index]` is unchecked (undefined behavior out of
range); modelled with `List.getD`. -/
def MoveToCorner : LeafFn := fun _ e w =>
  let target := waypointTarget e w
  let e1 := { e with debug_state := "PATROL" }
  if distSqr e1.position target ≤ World.waypoint_radius * World.waypoint_radius then
    (.Success, e1, w)
  else (.Running, e1, w)

/-- AdvanceCorner (game-ai.hpp lines 49-54):
`waypoint_index = (waypoint_index + 1) % count` with `count = waypoints.size()`.
C++ `%` on `int` truncates toward zero, which is `Int.tmod`. -/
def AdvanceCorner : LeafFn := fun _ e w =>
  let count : Int := (w.waypoints.length : Int)
  (.Success, { e with waypoint_index := Int.tmod (e.waypoint_index + 1) count }, w)

/-- DoSeekFood (game-ai.hpp lines 56-69): steer toward the food (acceleration
writes omitted, see `DoFlee`); if within `World::food_radius`, reset hunger to a
small random value, clear the flag and Succeed, else keep Running. -/
def DoSeekFood : LeafFn := fun _ e w =>
  let e1 := { e with debug_state := "SEEK FOOD" }
  if distSqr e1.position w.food_pos < World.food_radius * World.food_radius then
    (.Success, { e1 with hunger := random_range 0 (12 / 100), isHungry := false }, w)
  else (.Running, e1, w)

/-- The flee branch of DemoTree (game-ai.hpp line 77): `Sequence{&threat, &flee}`. -/
def fleeSeq : NodeFn := Sequence.tick [Leaf.tick ThreatNearby, Leaf.tick DoFlee]

/-- The patrol branch of DemoTree (game-ai.hpp line 82):
`MemorySequence{0, {&moveToCorner, &advanceCorner}}`. -/
def patrolSeq : NodeFn :=
  MemorySequence.tick 0 [Leaf.tick MoveToCorner, Leaf.tick AdvanceCorner]

/-- game-ai.hpp line 83: `RepeatForever patrolLoop{&patrolSeq}`. -/
def patrolLoop : NodeFn := RepeatForever.tick patrolSeq

/-- The hunger branch of DemoTree (game-ai.hpp line 88): `Sequence{&hungry, &seekFood}`. -/
def foodSeq : NodeFn := Sequence.tick [Leaf.tick CheckHunger, Leaf.tick DoSeekFood]

/-- The root of DemoTree (game-ai.hpp line 91): `Selector{&fleeSeq, &foodSeq, &patrolLoop}`. -/
def DemoTree.root : NodeFn := Selector.tick [fleeSeq, foodSeq, patrolLoop]

/-- DemoTree's brain (game-ai.hpp line 92): `EntityBrain brain{&root}`. -/
def DemoTree.brain : Float → Entity → World → Option TickRes :=
  EntityBrain.tick (some DemoTree.root)

/-- One agent's tick step of the main loop (main.cpp `update_entity` / the loop in
`main`): build a `Context` for agent `k` of the agent list, tick the shared tree,
and store back the mutated agent state and world.  (The physical integration that
`update_entity` performs afterwards concerns only the omitted velocity and
acceleration fields.) -/
def tick_agent (root : NodeFn) (dt : Float) (agents : List Entity) (k : Nat)
    (w : World) : List Entity × World :=
  match agents.get? k with
  | none => (agents, w)
  | some e =>
    let r := root dt e w
    (agents.set k r.self, r.world)

/-- Modelled from the spec, §4.4 (the one definition in this file written from
the spec's words rather than from the source, for the refinement claim about
MemorySequence): read index `i` from the agent's slot; loop while
`i < childCount`: tick child `i`; if Running, leave `i` unchanged in the slot and
return Running; if Failure, reset the slot to 0 and return Failure; if Success,
increment `i` (in the slot) and continue in the same tick; if the loop exhausts
all children, reset the slot to 0 and return Success.  The loop is written with
the explicit fuel `childCount - i`, which is positive exactly while `i < childCount`. -/
def msSpecGo (slot : Nat) (cs : List NodeFn) (dt : Float) :
    Nat → Nat → Entity → World → Status × Entity × World
  | 0, _, e, w => (.Success, setSlot e slot 0, w)
  | fuel + 1, i, e, w =>
    let r := (cs.getD i (Leaf.tick fun _ e w => (.Success, e, w))) dt e w
    match r.status with
    | .Running => (.Running, r.self, r.world)
    | .Failure => (.Failure, setSlot r.self slot 0, r.world)
    | .Success => msSpecGo slot cs dt fuel (i + 1) (setSlot r.self slot (i + 1)) r.world

/-- Modelled from the spec, §4.4: the whole resumption algorithm, entered at the
index read from the agent's slot (see `msSpecGo`). -/
def memorySequenceSpec (slot : Nat) (cs : List NodeFn) (dt : Float) (e : Entity)
    (w : World) : Status × Entity × World :=
  let i := (getSlot e slot).toNat
  msSpecGo slot cs dt (cs.length - i) i e w

/-- Setting a list entry to 0 and reading the same position back gives 0, also
out of range, where the write is dropped and the read defaults to 0. -/
theorem set_zero_read_zero (l : List Int) : ∀ s : Nat, ((l.set s 0)[s]?).getD 0 = 0 := by
  induction l with
  | nil => intro s; cases s <;> simp
  | cons a l ih =>
    intro s
    cases s with
    | zero => simp
    | succ n => simpa using ih n

/-- Writing 0 to a slot and reading it back gives 0, whether or not the slot is
within the allocated array (an out-of-range read defaults to 0 as well). -/
theorem getSlot_setSlot_zero (e : Entity) (s : Nat) : getSlot (setSlot e s 0) s = 0 := by
  show (e.bt_mem.set s 0).getD s 0 = 0
  rw [List.getD_eq_getElem?_getD]
  exact set_zero_read_zero e.bt_mem s

/-- C4: for every child node and every context, RepeatForever.tick ticks its
single child exactly once (trace `[0]`), returns Running whatever the child
returned, and changes no state itself: the resulting agent and world are exactly
the ones the child's tick produced. -/
theorem repeatForever_ticks_once_returns_running (child : NodeFn) (dt : Float)
    (e : Entity) (w : World) :
    RepeatForever.tick child dt e w =
      ⟨Status.Running, (child dt e w).self, (child dt e w).world, [0]⟩ := rfl

/-- C9: an empty Sequence returns Success and an empty Selector returns Failure
on every call, ticking no child (empty trace) and leaving the agent and world
untouched. -/
theorem empty_sequence_selector_defaults (dt : Float) (e : Entity) (w : World) :
    Sequence.tick [] dt e w = ⟨Status.Success, e, w, []⟩ ∧
    Selector.tick [] dt e w = ⟨Status.Failure, e, w, []⟩ :=
  ⟨rfl, rfl⟩

/-- C6 counterexample: a Sequence constructed with an empty child list does not
fail loudly at construction or first tick — its first tick silently produces the
Status value Success and leaves the agent untouched, contradicting the claim
that an empty child list causes an abort/panic/exception. -/
theorem empty_sequence_ticks_silently :
    Sequence.tick [] 0 {} {} = ⟨Status.Success, {}, {}, []⟩ := rfl

/-- C6 amended: only the missing-root precondition fails loudly (the assert in
EntityBrain::tick, modelled as producing no result); a composite constructed
with an empty child list silently returns Success (Sequence) or Failure
(Selector), and a MemorySequence whose slot index is outside the agent's
`bt_mem` range is not checked (unchecked array access in the C++): its tick
silently produces a Status value. -/
theorem precondition_error_handling :
    (∀ dt e w, EntityBrain.tick none dt e w = none) ∧
    (∀ dt e w, Sequence.tick [] dt e w = ⟨Status.Success, e, w, []⟩) ∧
    (∀ dt e w, Selector.tick [] dt e w = ⟨Status.Failure, e, w, []⟩) ∧
    (∀ dt e w, (MemorySequence.tick 99 [Leaf.tick fun _ e w => (Status.Success, e, w)]
      dt e w).status = Status.Success) := by
  refine ⟨fun _ _ _ => rfl, fun _ _ _ => rfl, fun _ _ _ => rfl, fun dt e w => ?_⟩
  show (msGo 99 dt (List.drop (getSlot e 99).toNat _) _ e w).status = Status.Success
  cases hi : (getSlot e 99).toNat with
  | zero => simp [msGo, Leaf.tick]
  | succ n => cases n <;> simp [msGo, List.drop]

/-- C7 counterexample: with the agent exactly on the food position (respectively
exactly on its current waypoint), DoSeekFood (respectively MoveToCorner) hands a
zero-length vector to normalization — `steer_seek` has no zero-length guard — so
it is not the case that every direction-computing leaf falls back to a safe
default before normalizing. -/
theorem seek_normalizes_zero_vector :
    lengthSqr (DoSeekFood_normalize_arg { position := ⟨320, 360⟩ } {}) = 0 ∧
    lengthSqr (MoveToCorner_normalize_arg { position := ⟨100, 100⟩ } {}) = 0 := by
  constructor <;>
    norm_num [DoSeekFood_normalize_arg, MoveToCorner_normalize_arg, waypointTarget,
      steer_seek_normalize_arg, Vector2.sub, lengthSqr, List.getD]

/-- C7 amended: DoFlee never normalizes a zero-length vector — `steer_flee`
replaces a vector of squared length below 0.0001 with (1,0) before normalizing —
but DoSeekFood and MoveToCorner pass `target - position` to normalization
unguarded, which is zero-length whenever the target coincides with the agent's
position. -/
theorem flee_guarded_seek_unguarded (e : Entity) (w : World) :
    0 < lengthSqr (DoFlee_normalize_arg e w) ∧
    (e.position = w.food_pos → lengthSqr (DoSeekFood_normalize_arg e w) = 0) ∧
    (e.position = waypointTarget e w →
      lengthSqr (MoveToCorner_normalize_arg e w) = 0) := by
  refine ⟨?_, fun h => ?_, fun h => ?_⟩
  · unfold DoFlee_normalize_arg steer_flee_normalize_arg
    by_cases hg : lengthSqr (e.position.sub w.wolf_pos) < 1 / 10000
    · simp only [hg, if_pos, if_true]
      norm_num [lengthSqr]
    · simp only [hg, if_neg, if_false]
      have : (0 : ℚ) < 1 / 10000 := by norm_num
      linarith [not_lt.mp hg]
  · simp [DoSeekFood_normalize_arg, steer_seek_normalize_arg, Vector2.sub, lengthSqr, h]
  · unfold MoveToCorner_normalize_arg steer_seek_normalize_arg
    rw [← h]
    simp [Vector2.sub, lengthSqr]

/-- C7 amended, witness: concrete instantiation with the agent exactly on the
food position and on waypoint 0. -/
theorem flee_guarded_seek_unguarded_witness :
    (({ position := ⟨320, 360⟩, waypoint_index := 0 } : Entity).position =
        ({} : World).food_pos) ∧
    (0 < lengthSqr (DoFlee_normalize_arg { position := ⟨320, 360⟩, waypoint_index := 0 } {}) ∧
      ((({ position := ⟨320, 360⟩, waypoint_index := 0 } : Entity).position =
          ({} : World).food_pos) →
        lengthSqr (DoSeekFood_normalize_arg { position := ⟨320, 360⟩, waypoint_index := 0 } {}) = 0) ∧
      ((({ position := ⟨320, 360⟩, waypoint_index := 0 } : Entity).position =
          waypointTarget { position := ⟨320, 360⟩, waypoint_index := 0 } {}) →
        lengthSqr (MoveToCorner_normalize_arg { position := ⟨320, 360⟩, waypoint_index := 0 } {}) = 0)) :=
  ⟨rfl, flee_guarded_seek_unguarded { position := ⟨320, 360⟩, waypoint_index := 0 } {}⟩

/-- C5: ticking the shared tree with a Context referring to agent `k` leaves
every other agent's entry in the agent list — every field, including all memory
slots — exactly as it was. -/
theorem tick_isolates_other_agents (root : NodeFn) (dt : Float)
    (agents : List Entity) (k j : Nat) (w : World) (h : j ≠ k) :
    (tick_agent root dt agents k w).1.get? j = agents.get? j := by
  unfold tick_agent
  cases hk : agents.get? k with
  | none => rfl
  | some e => simp [List.getElem?_set_ne (fun hkj => h hkj.symm)]

/-- If dropping `i` elements exposes `c` as the head, then `c` is the element at
index `i`. -/
theorem getD_of_drop_eq_cons {α : Type} (d : α) :
    ∀ (cs : List α) (i : Nat) (c : α) (rest : List α),
      cs.drop i = c :: rest → cs.getD i d = c := by
  intro cs
  induction cs with
  | nil => intro i c rest h; simp at h
  | cons a cs ih =>
    intro i c rest h
    cases i with
    | zero => simpa using congrArg (List.headD · d) h
    | succ n => exact ih n c rest h

/-- Dropping one more element after exposing a cons head leaves the tail. -/
theorem drop_succ_of_drop_eq_cons {α : Type} :
    ∀ (cs : List α) (i : Nat) (c : α) (rest : List α),
      cs.drop i = c :: rest → cs.drop (i + 1) = rest := by
  intro cs
  induction cs with
  | nil => intro i c rest h; simp at h
  | cons a cs ih =>
    intro i c rest h
    cases i with
    | zero => simpa using congrArg List.tail h
    | succ n => exact ih n c rest h

/-- The loop of MemorySequence::tick computes exactly what the spec's worded
algorithm (`msSpecGo`) computes, for any suffix of the child list. -/
theorem msGo_eq_msSpecGo (slot : Nat) (dt : Float) (cs : List NodeFn) :
    ∀ (rest : List NodeFn) (i : Nat) (e : Entity) (w : World), cs.drop i = rest →
      ((msGo slot dt rest i e w).status, (msGo slot dt rest i e w).self,
        (msGo slot dt rest i e w).world) = msSpecGo slot cs dt (cs.length - i) i e w := by
  intro rest
  induction rest with
  | nil =>
    intro i e w h
    have hlen : cs.length - i = 0 := by
      have := congrArg List.length h
      simpa [List.length_drop] using this
    rw [hlen]
    simp [msGo, msSpecGo]
  | cons c rest ih =>
    intro i e w h
    have hlen : cs.length - i = (cs.length - (i + 1)) + 1 := by
      have := congrArg List.length h
      simp [List.length_drop] at this
      omega
    have hc : cs.getD i (Leaf.tick fun _ e w => (.Success, e, w)) = c :=
      getD_of_drop_eq_cons _ cs i c rest h
    rw [hlen]
    simp only [msGo, msSpecGo, hc]
    cases hs : (c dt e w).status with
    | Running => simp [hs]
    | Failure => simp [hs]
    | Success =>
      simp only [hs]
      exact ih (i + 1) _ _ (drop_succ_of_drop_eq_cons cs i c rest h)

/-- The loop of MemorySequence::tick ticks a consecutive block of children
starting exactly at the index it was entered with. -/
theorem msGo_trace_range (slot : Nat) (dt : Float) :
    ∀ (rest : List NodeFn) (i : Nat) (e : Entity) (w : World),
      ∃ k, (msGo slot dt rest i e w).trace = List.range' i k := by
  intro rest
  induction rest with
  | nil => intro i e w; exact ⟨0, rfl⟩
  | cons c rest ih =>
    intro i e w
    cases hs : (c dt e w).status with
    | Running => exact ⟨1, by simp [msGo, hs, List.range']⟩
    | Failure => exact ⟨1, by simp [msGo, hs, List.range']⟩
    | Success =>
      obtain ⟨k, hk⟩ := ih (i + 1) (setSlot (c dt e w).self slot (i + 1)) (c dt e w).world
      exact ⟨k + 1, by simp [msGo, hs, hk, List.range']⟩

/-- C1: MemorySequence.tick follows the spec's resumption algorithm exactly —
its status and the resulting agent and world equal those of the algorithm worded
in the spec (`memorySequenceSpec`: read `i` from the slot; Running leaves the
slot at `i` and returns Running; Failure resets the slot to 0 and returns
Failure; Success increments the slot and continues in the same tick; exhausting
the children resets the slot to 0 and returns Success) — and the children it
ticks form a consecutive block starting exactly at the stored index: no child
before the remembered one is re-ticked and no child is skipped. -/
theorem memorySequence_resumption (slot : Nat) (cs : List NodeFn) (dt : Float)
    (e : Entity) (w : World) :
    ((MemorySequence.tick slot cs dt e w).status,
      (MemorySequence.tick slot cs dt e w).self,
      (MemorySequence.tick slot cs dt e w).world) = memorySequenceSpec slot cs dt e w ∧
    ∃ k, (MemorySequence.tick slot cs dt e w).trace =
      List.range' (getSlot e slot).toNat k := by
  constructor
  · exact msGo_eq_msSpecGo slot dt cs _ _ e w rfl
  · exact msGo_trace_range slot dt _ _ e w

/-- Characterization of the Sequence loop, entered at trace index `i`: either
every child succeeded — the whole suffix was ticked in order and, for each
position `k`, running just the first `k` children from the same state succeeds
and leaves child `k` returning Success — or there is a first child `k` that did
not succeed: the children ticked are exactly `i, …, i+k`, the first `k` children
ran to Success, and child `k`'s own status, agent and world are returned
unchanged (the loop writes nothing of its own). -/
theorem seqGo_char (dt : Float) :
    ∀ (cs : List NodeFn) (i : Nat) (e : Entity) (w : World),
      ((seqGo dt cs i e w).status = Status.Success ∧
        (seqGo dt cs i e w).trace = List.range' i cs.length ∧
        (∀ k, k < cs.length → ∃ e2 w2 c,
          seqGo dt (cs.take k) i e w = ⟨Status.Success, e2, w2, List.range' i k⟩ ∧
          cs[k]? = some c ∧ (c dt e2 w2).status = Status.Success))
      ∨ ((seqGo dt cs i e w).status ≠ Status.Success ∧ ∃ k e2 w2 c,
          k < cs.length ∧
          (seqGo dt cs i e w).trace = List.range' i (k + 1) ∧
          seqGo dt (cs.take k) i e w = ⟨Status.Success, e2, w2, List.range' i k⟩ ∧
          cs[k]? = some c ∧
          (c dt e2 w2).status = (seqGo dt cs i e w).status ∧
          (c dt e2 w2).self = (seqGo dt cs i e w).self ∧
          (c dt e2 w2).world = (seqGo dt cs i e w).world) := by
  intro cs
  induction cs with
  | nil =>
    intro i e w
    left
    refine ⟨rfl, rfl, fun k hk => by simp at hk⟩
  | cons c rest ih =>
    intro i e w
    cases hs : (c dt e w).status with
    | Running =>
      right
      refine ⟨by simp [seqGo, hs], 0, e, w, c, by simp, by simp [seqGo, hs, List.range'],
        by simp [seqGo, List.range'], by simp, by simp [seqGo, hs], by simp [seqGo, hs],
        by simp [seqGo, hs]⟩
    | Failure =>
      right
      refine ⟨by simp [seqGo, hs], 0, e, w, c, by simp, by simp [seqGo, hs, List.range'],
        by simp [seqGo, List.range'], by simp, by simp [seqGo, hs], by simp [seqGo, hs],
        by simp [seqGo, hs]⟩
    | Success =>
      rcases ih (i + 1) (c dt e w).self (c dt e w).world with
        ⟨hst, htr, hall⟩ | ⟨hne, k, e2, w2, c2, hk, htr, hpre, hidx, hcs, hcself, hcworld⟩
      · left
        refine ⟨by simp [seqGo, hs, hst], by simp [seqGo, hs, htr, List.range'],
          fun k hk => ?_⟩
        cases k with
        | zero => exact ⟨e, w, c, by simp [seqGo, List.range'], by simp, hs⟩
        | succ k' =>
          obtain ⟨e2, w2, c2, h1, h2, h3⟩ := hall k' (by simp at hk; omega)
          exact ⟨e2, w2, c2, by simp [List.take_succ_cons, seqGo, hs, h1, List.range'],
            by simpa using h2, h3⟩
      · right
        refine ⟨by simp [seqGo, hs, hne], k + 1, e2, w2, c2, by simpa using hk,
          by simp [seqGo, hs, htr, List.range'],
          by simp [List.take_succ_cons, seqGo, hs, hpre, List.range'],
          by simpa using hidx,
          by simp [seqGo, hs, hcs], by simp [seqGo, hs, hcself], by simp [seqGo, hs, hcworld]⟩

/-- C2: Sequence.tick evaluates children in list order from index 0: either the
tick returned Success, every child was ticked (trace `0, …, n-1`) and each child
— run after the children before it, from the same starting state — returned
Success; or it returned the status (Failure or Running) of the first child `k`
that did not succeed, ticking exactly children `0, …, k` (no later child), with
child `k`'s resulting agent and world returned unchanged — the Sequence itself
writes no memory slot and remembers no position. -/
theorem sequence_short_circuit (cs : List NodeFn) (dt : Float) (e : Entity) (w : World) :
    ((Sequence.tick cs dt e w).status = Status.Success ∧
      (Sequence.tick cs dt e w).trace = List.range cs.length ∧
      (∀ k, k < cs.length → ∃ e2 w2 c,
        seqGo dt (cs.take k) 0 e w = ⟨Status.Success, e2, w2, List.range k⟩ ∧
        cs[k]? = some c ∧ (c dt e2 w2).status = Status.Success))
    ∨ ((Sequence.tick cs dt e w).status ≠ Status.Success ∧ ∃ k e2 w2 c,
        k < cs.length ∧
        (Sequence.tick cs dt e w).trace = List.range (k + 1) ∧
        seqGo dt (cs.take k) 0 e w = ⟨Status.Success, e2, w2, List.range k⟩ ∧
        cs[k]? = some c ∧
        (c dt e2 w2).status = (Sequence.tick cs dt e w).status ∧
        (c dt e2 w2).self = (Sequence.tick cs dt e w).self ∧
        (c dt e2 w2).world = (Sequence.tick cs dt e w).world) := by
  simpa [Sequence.tick, List.range_eq_range'] using seqGo_char dt cs 0 e w

/-- Characterization of the Selector loop, entered at trace index `i`: mirror
image of `seqGo_char` with Success and Failure exchanged. -/
theorem selGo_char (dt : Float) :
    ∀ (cs : List NodeFn) (i : Nat) (e : Entity) (w : World),
      ((selGo dt cs i e w).status = Status.Failure ∧
        (selGo dt cs i e w).trace = List.range' i cs.length ∧
        (∀ k, k < cs.length → ∃ e2 w2 c,
          selGo dt (cs.take k) i e w = ⟨Status.Failure, e2, w2, List.range' i k⟩ ∧
          cs[k]? = some c ∧ (c dt e2 w2).status = Status.Failure))
      ∨ ((selGo dt cs i e w).status ≠ Status.Failure ∧ ∃ k e2 w2 c,
          k < cs.length ∧
          (selGo dt cs i e w).trace = List.range' i (k + 1) ∧
          selGo dt (cs.take k) i e w = ⟨Status.Failure, e2, w2, List.range' i k⟩ ∧
          cs[k]? = some c ∧
          (c dt e2 w2).status = (selGo dt cs i e w).status ∧
          (c dt e2 w2).self = (selGo dt cs i e w).self ∧
          (c dt e2 w2).world = (selGo dt cs i e w).world) := by
  intro cs
  induction cs with
  | nil =>
    intro i e w
    left
    refine ⟨rfl, rfl, fun k hk => by simp at hk⟩
  | cons c rest ih =>
    intro i e w
    cases hs : (c dt e w).status with
    | Running =>
      right
      refine ⟨by simp [selGo, hs], 0, e, w, c, by simp, by simp [selGo, hs, List.range'],
        by simp [selGo, List.range'], by simp, by simp [selGo, hs], by simp [selGo, hs],
        by simp [selGo, hs]⟩
    | Success =>
      right
      refine ⟨by simp [selGo, hs], 0, e, w, c, by simp, by simp [selGo, hs, List.range'],
        by simp [selGo, List.range'], by simp, by simp [selGo, hs], by simp [selGo, hs],
        by simp [selGo, hs]⟩
    | Failure =>
      rcases ih (i + 1) (c dt e w).self (c dt e w).world with
        ⟨hst, htr, hall⟩ | ⟨hne, k, e2, w2, c2, hk, htr, hpre, hidx, hcs, hcself, hcworld⟩
      · left
        refine ⟨by simp [selGo, hs, hst], by simp [selGo, hs, htr, List.range'],
          fun k hk => ?_⟩
        cases k with
        | zero => exact ⟨e, w, c, by simp [selGo, List.range'], by simp, hs⟩
        | succ k' =>
          obtain ⟨e2, w2, c2, h1, h2, h3⟩ := hall k' (by simp at hk; omega)
          exact ⟨e2, w2, c2, by simp [List.take_succ_cons, selGo, hs, h1, List.range'],
            by simpa using h2, h3⟩
      · right
        refine ⟨by simp [selGo, hs, hne], k + 1, e2, w2, c2, by simpa using hk,
          by simp [selGo, hs, htr, List.range'],
          by simp [List.take_succ_cons, selGo, hs, hpre, List.range'],
          by simpa using hidx,
          by simp [selGo, hs, hcs], by simp [selGo, hs, hcself], by simp [selGo, hs, hcworld]⟩

/-- C3: Selector.tick evaluates children in list order from index 0: either the
tick returned Failure, every child was ticked (trace `0, …, n-1`) and each child
— run after the children before it, from the same starting state — returned
Failure; or it returned the status (Success or Running) of the first child `k`
that did not fail, ticking exactly children `0, …, k` (no later child), with
child `k`'s resulting agent and world returned unchanged — the Selector itself
remembers no position. -/
theorem selector_short_circuit (cs : List NodeFn) (dt : Float) (e : Entity) (w : World) :
    ((Selector.tick cs dt e w).status = Status.Failure ∧
      (Selector.tick cs dt e w).trace = List.range cs.length ∧
      (∀ k, k < cs.length → ∃ e2 w2 c,
        selGo dt (cs.take k) 0 e w = ⟨Status.Failure, e2, w2, List.range k⟩ ∧
        cs[k]? = some c ∧ (c dt e2 w2).status = Status.Failure))
    ∨ ((Selector.tick cs dt e w).status ≠ Status.Failure ∧ ∃ k e2 w2 c,
        k < cs.length ∧
        (Selector.tick cs dt e w).trace = List.range (k + 1) ∧
        selGo dt (cs.take k) 0 e w = ⟨Status.Failure, e2, w2, List.range k⟩ ∧
        cs[k]? = some c ∧
        (c dt e2 w2).status = (Selector.tick cs dt e w).status ∧
        (c dt e2 w2).self = (Selector.tick cs dt e w).self ∧
        (c dt e2 w2).world = (Selector.tick cs dt e w).world) := by
  simpa [Selector.tick, List.range_eq_range'] using selGo_char dt cs 0 e w

/-- ThreatNearby only reads state: the agent and world come back unchanged. -/
theorem ThreatNearby_state (dt : Float) (e : Entity) (w : World) :
    (ThreatNearby dt e w).2 = (e, w) := by
  unfold ThreatNearby
  split
  · rfl
  · split <;> rfl

/-- CheckHunger writes at most the `isHungry` flag and reports it: the result is
Success or Failure according to the updated flag, the world is unchanged. -/
theorem CheckHunger_shape (dt : Float) (e : Entity) (w : World) :
    ∃ b, CheckHunger dt e w =
      (if b then Status.Success else Status.Failure, { e with isHungry := b }, w) := by
  unfold CheckHunger
  split
  · dsimp only
    split
    · exact ⟨false, rfl⟩
    · exact ⟨true, rfl⟩
  · dsimp only
    split
    · exact ⟨false, rfl⟩
    · exact ⟨e.isHungry, rfl⟩

/-- A failing CheckHunger leaves the agent not hungry and otherwise unchanged. -/
theorem CheckHunger_failure (dt : Float) (e : Entity) (w : World)
    (h : (CheckHunger dt e w).1 = Status.Failure) :
    CheckHunger dt e w = (Status.Failure, { e with isHungry := false }, w) := by
  obtain ⟨b, hb⟩ := CheckHunger_shape dt e w
  cases b with
  | true => rw [hb] at h; simp at h
  | false => simpa using hb

/-- MoveToCorner returns Success exactly when the agent is within
`World::waypoint_radius` of its current waypoint, Running otherwise. -/
theorem MoveToCorner_status (dt : Float) (e : Entity) (w : World) :
    (MoveToCorner dt e w).1 =
      (if distSqr e.position (waypointTarget e w) ≤
          World.waypoint_radius * World.waypoint_radius
        then Status.Success else Status.Running) := by
  unfold MoveToCorner
  by_cases hc : distSqr e.position (waypointTarget e w) ≤
      World.waypoint_radius * World.waypoint_radius
  · simp [hc]
  · simp [hc]

/-- The flee branch fails without touching any state when ThreatNearby fails. -/
theorem fleeSeq_failure (dt : Float) (e : Entity) (w : World)
    (h : (ThreatNearby dt e w).1 = Status.Failure) :
    fleeSeq dt e w = ⟨Status.Failure, e, w, [0]⟩ := by
  have h2 : ThreatNearby dt e w = (Status.Failure, e, w) := by
    have hst := ThreatNearby_state dt e w
    exact Prod.ext h hst
  simp [fleeSeq, Sequence.tick, seqGo, Leaf.tick, h2]

/-- The food branch fails, clearing only the hunger flag, when CheckHunger fails. -/
theorem foodSeq_failure (dt : Float) (e : Entity) (w : World)
    (h : (CheckHunger dt e w).1 = Status.Failure) :
    foodSeq dt e w = ⟨Status.Failure, { e with isHungry := false }, w, [0]⟩ := by
  have h2 := CheckHunger_failure dt e w h
  simp [foodSeq, Sequence.tick, seqGo, Leaf.tick, h2]

/-- One tick of the patrol MemorySequence from slot value 0: the world comes back
unchanged, the slot is 0 again afterwards, and `waypoint_index` advances by one
modulo the waypoint count exactly when the agent is within the waypoint radius
of its current waypoint (MoveToCorner Success), staying unchanged otherwise. -/
theorem patrolSeq_fields (dt : Float) (e : Entity) (w : World) (h : getSlot e 0 = 0) :
    (patrolSeq dt e w).world = w ∧
    getSlot (patrolSeq dt e w).self 0 = 0 ∧
    (patrolSeq dt e w).self.waypoint_index =
      (if distSqr e.position (waypointTarget e w) ≤
          World.waypoint_radius * World.waypoint_radius
        then Int.tmod (e.waypoint_index + 1) (w.waypoints.length : Int)
        else e.waypoint_index) := by
  unfold patrolSeq MemorySequence.tick
  rw [h]
  by_cases hc : distSqr e.position (waypointTarget e w) ≤
      World.waypoint_radius * World.waypoint_radius
  · simp [msGo, Leaf.tick, MoveToCorner, AdvanceCorner, hc, setSlot, getSlot,
      set_zero_read_zero]
  · simp only [getSlot, List.getD_eq_getElem?_getD] at h
    simp [msGo, Leaf.tick, MoveToCorner, hc, getSlot, h]

/-- C8: one tick of the demo tree under the scenario hypotheses — the threat
condition and the hunger condition both fail, and the patrol slot holds 0 (its
initial value, which the tick also re-establishes, so the hypothesis is
self-sustaining over repeated ticks) — returns Running, leaves the world
unchanged, leaves the slot at 0, and advances `waypoint_index` by exactly one
modulo the waypoint count precisely when the move-to-waypoint leaf reports
Success (distance within the waypoint radius), leaving it unchanged on every
other tick. -/
theorem demoTree_waypoint_step (dt : Float) (e : Entity) (w : World)
    (hthreat : (ThreatNearby dt e w).1 = Status.Failure)
    (hhunger : (CheckHunger dt e w).1 = Status.Failure)
    (hslot : getSlot e 0 = 0) :
    (DemoTree.root dt e w).status = Status.Running ∧
    (DemoTree.root dt e w).world = w ∧
    getSlot (DemoTree.root dt e w).self 0 = 0 ∧
    (DemoTree.root dt e w).self.waypoint_index =
      (if (MoveToCorner dt e w).1 = Status.Success then
        Int.tmod (e.waypoint_index + 1) (w.waypoints.length : Int)
      else e.waypoint_index) := by
  have hflee := fleeSeq_failure dt e w hthreat
  have hfood := foodSeq_failure dt e w hhunger
  have hroot : DemoTree.root dt e w =
      ⟨Status.Running, (patrolSeq dt { e with isHungry := false } w).self,
        (patrolSeq dt { e with isHungry := false } w).world, [0, 1, 2]⟩ := by
    simp [DemoTree.root, Selector.tick, selGo, hflee, hfood, patrolLoop,
      RepeatForever.tick]
  have hps := patrolSeq_fields dt { e with isHungry := false } w
    (by simpa [getSlot] using hslot)
  rw [hroot]
  refine ⟨rfl, by simpa using hps.1, by simpa using hps.2.1, ?_⟩
  have hwp := hps.2.2
  have htg : waypointTarget { e with isHungry := false } w = waypointTarget e w := rfl
  rw [htg] at hwp
  simp only [MoveToCorner_status]
  by_cases hc : distSqr e.position (waypointTarget e w) ≤
      World.waypoint_radius * World.waypoint_radius
  · simpa [hc] using hwp
  · simpa [hc] using hwp

/-- A patrol-scenario agent for the C8 witness: standing on waypoint 0, hunger
at one half, not hungry, memory zeroed. -/
def patrolAgent : Entity := { position := ⟨100, 100⟩, hunger := 1 / 2 }

/-- C8 witness: at `patrolAgent` in the default world the hypotheses hold — the
wolf is far so the threat condition fails, the hunger condition fails, the slot
holds 0 — and the conclusion of the per-tick theorem follows (the agent stands
on waypoint 0, so MoveToCorner succeeds and the index advances to 1 mod 4). -/
theorem demoTree_waypoint_step_witness :
    (ThreatNearby 0 patrolAgent {}).1 = Status.Failure ∧
    (CheckHunger 0 patrolAgent {}).1 = Status.Failure ∧
    getSlot patrolAgent 0 = 0 ∧
    ((DemoTree.root 0 patrolAgent {}).status = Status.Running ∧
      (DemoTree.root 0 patrolAgent {}).world = {} ∧
      getSlot (DemoTree.root 0 patrolAgent {}).self 0 = 0 ∧
      (DemoTree.root 0 patrolAgent {}).self.waypoint_index =
        (if (MoveToCorner 0 patrolAgent {}).1 = Status.Success then
          Int.tmod (patrolAgent.waypoint_index + 1) ((({} : World).waypoints.length : Int))
        else patrolAgent.waypoint_index)) :=
  ⟨by norm_num [ThreatNearby, distSqr, lengthSqr, Vector2.sub, patrolAgent],
   by norm_num [CheckHunger, patrolAgent],
   by rfl,
   demoTree_waypoint_step 0 patrolAgent {}
     (by norm_num [ThreatNearby, distSqr, lengthSqr, Vector2.sub, patrolAgent])
     (by norm_num [CheckHunger, patrolAgent])
     (by rfl)⟩

/-- ThreatNearby either succeeds or fails; in both cases the state is unchanged. -/
theorem ThreatNearby_cases (dt : Float) (e : Entity) (w : World) :
    ThreatNearby dt e w = (Status.Success, e, w) ∨
    ThreatNearby dt e w = (Status.Failure, e, w) := by
  unfold ThreatNearby
  split
  · right; rfl
  · split
    · left; rfl
    · right; rfl

/-- The flee branch either fails with the state untouched (no threat) or keeps
running with only the debug tag written (fleeing). -/
theorem fleeSeq_shape (dt : Float) (e : Entity) (w : World) :
    fleeSeq dt e w = ⟨Status.Failure, e, w, [0]⟩ ∨
    fleeSeq dt e w = ⟨Status.Running, { e with debug_state := "FLEE" }, w, [0, 1]⟩ := by
  rcases ThreatNearby_cases dt e w with ht | ht
  · right; simp [fleeSeq, Sequence.tick, seqGo, Leaf.tick, ht, DoFlee]
  · left; simp [fleeSeq, Sequence.tick, seqGo, Leaf.tick, ht]

/-- The food branch either fails having only cleared the hunger flag, or
short-circuits the selector with Success or Running; in every case the world is
unchanged and the agent's `waypoint_index` and `bt_mem` are preserved. -/
theorem foodSeq_shape (dt : Float) (e : Entity) (w : World) :
    foodSeq dt e w = ⟨Status.Failure, { e with isHungry := false }, w, [0]⟩ ∨
    ∃ e2, (foodSeq dt e w = ⟨Status.Success, e2, w, [0, 1]⟩ ∨
        foodSeq dt e w = ⟨Status.Running, e2, w, [0, 1]⟩) ∧
      e2.waypoint_index = e.waypoint_index ∧ e2.bt_mem = e.bt_mem := by
  obtain ⟨b, hb⟩ := CheckHunger_shape dt e w
  cases b with
  | false => left; simp [foodSeq, Sequence.tick, seqGo, Leaf.tick, hb]
  | true =>
    right
    by_cases hd : distSqr ({ e with isHungry := true } : Entity).position w.food_pos <
        World.food_radius * World.food_radius
    · have hfood : foodSeq dt e w =
          ⟨Status.Success, { e with debug_state := "SEEK FOOD", hunger := random_range 0 (12 / 100), isHungry := false }, w, [0, 1]⟩ := by
        simp [foodSeq, Sequence.tick, seqGo, Leaf.tick, hb, DoSeekFood, hd]
      exact ⟨_, Or.inl hfood, rfl, rfl⟩
    · have hfood : foodSeq dt e w =
          ⟨Status.Running, { e with debug_state := "SEEK FOOD", isHungry := true }, w, [0, 1]⟩ := by
        simp [foodSeq, Sequence.tick, seqGo, Leaf.tick, hb, DoSeekFood, hd]
      exact ⟨_, Or.inr hfood, rfl, rfl⟩

/-- One tick of the patrol MemorySequence from an arbitrary slot value: the
world is unchanged and `waypoint_index` is either untouched or advanced by one
modulo the waypoint count. -/
theorem patrolSeq_waypoint (dt : Float) (e : Entity) (w : World) :
    (patrolSeq dt e w).world = w ∧
    ((patrolSeq dt e w).self.waypoint_index = e.waypoint_index ∨
      (patrolSeq dt e w).self.waypoint_index =
        Int.tmod (e.waypoint_index + 1) (w.waypoints.length : Int)) := by
  unfold patrolSeq MemorySequence.tick
  cases hi : (getSlot e 0).toNat with
  | zero =>
    by_cases hc : distSqr e.position (waypointTarget e w) ≤
        World.waypoint_radius * World.waypoint_radius
    · constructor
      · simp [msGo, Leaf.tick, MoveToCorner, AdvanceCorner, hc, setSlot]
      · right; simp [msGo, Leaf.tick, MoveToCorner, AdvanceCorner, hc, setSlot]
    · constructor
      · simp [msGo, Leaf.tick, MoveToCorner, hc]
      · left; simp [msGo, Leaf.tick, MoveToCorner, hc]
  | succ n =>
    cases n with
    | zero =>
      constructor
      · simp [msGo, Leaf.tick, AdvanceCorner, setSlot]
      · right; simp [msGo, Leaf.tick, AdvanceCorner, setSlot]
    | succ m =>
      constructor
      · simp [msGo, List.drop]
      · left; simp [msGo, List.drop, setSlot]

/-- One tick of the demo tree leaves `waypoint_index` either untouched or
advanced by one modulo the waypoint count, whatever branch runs. -/
theorem demoTree_waypoint_cases (dt : Float) (e : Entity) (w : World) :
    (DemoTree.root dt e w).world = w ∧
    ((DemoTree.root dt e w).self.waypoint_index = e.waypoint_index ∨
      (DemoTree.root dt e w).self.waypoint_index =
        Int.tmod (e.waypoint_index + 1) (w.waypoints.length : Int)) := by
  rcases fleeSeq_shape dt e w with hf | hf
  · rcases foodSeq_shape dt e w with hd | ⟨e2, hd2, hwp, _⟩
    · have hp := patrolSeq_waypoint dt { e with isHungry := false } w
      have hroot : DemoTree.root dt e w =
          ⟨Status.Running, (patrolSeq dt { e with isHungry := false } w).self,
            (patrolSeq dt { e with isHungry := false } w).world, [0, 1, 2]⟩ := by
        simp [DemoTree.root, Selector.tick, selGo, hf, hd, patrolLoop, RepeatForever.tick]
      rw [hroot]
      exact ⟨hp.1, by simpa using hp.2⟩
    · rcases hd2 with hd | hd
      · have hroot : DemoTree.root dt e w = ⟨Status.Success, e2, w, [0, 1]⟩ := by
          simp [DemoTree.root, Selector.tick, selGo, hf, hd]
        rw [hroot]
        exact ⟨rfl, Or.inl hwp⟩
      · have hroot : DemoTree.root dt e w = ⟨Status.Running, e2, w, [0, 1]⟩ := by
          simp [DemoTree.root, Selector.tick, selGo, hf, hd]
        rw [hroot]
        exact ⟨rfl, Or.inl hwp⟩
  · have hroot : DemoTree.root dt e w =
        ⟨Status.Running, { e with debug_state := "FLEE" }, w, [0]⟩ := by
      simp [DemoTree.root, Selector.tick, selGo, hf]
    rw [hroot]
    exact ⟨rfl, Or.inl rfl⟩

/-- C10: if the agent's `waypoint_index` lies in `[0, waypoints.length)`, one
tick of the demo tree keeps it there (and leaves the waypoint list itself
untouched, the world being returned unchanged); the index MoveToCorner uses is
in bounds; AdvanceCorner is the leaf that writes `waypoint_index`, setting it to
`(waypoint_index + 1) % waypoints.size()`, and no other leaf writes it. -/
theorem demoTree_waypoint_invariant (dt : Float) (e : Entity) (w : World)
    (h0 : 0 ≤ e.waypoint_index) (h1 : e.waypoint_index < (w.waypoints.length : Int)) :
    (0 ≤ (DemoTree.root dt e w).self.waypoint_index ∧
      (DemoTree.root dt e w).self.waypoint_index < (w.waypoints.length : Int)) ∧
    (DemoTree.root dt e w).world = w ∧
    e.waypoint_index.toNat < w.waypoints.length ∧
    (∀ dt2 e2 w2, ((AdvanceCorner dt2 e2 w2).2.1).waypoint_index =
      Int.tmod (e2.waypoint_index + 1) (w2.waypoints.length : Int)) ∧
    (∀ dt2 e2 w2, ((ThreatNearby dt2 e2 w2).2.1).waypoint_index = e2.waypoint_index) ∧
    (∀ dt2 e2 w2, ((CheckHunger dt2 e2 w2).2.1).waypoint_index = e2.waypoint_index) ∧
    (∀ dt2 e2 w2, ((DoFlee dt2 e2 w2).2.1).waypoint_index = e2.waypoint_index) ∧
    (∀ dt2 e2 w2, ((MoveToCorner dt2 e2 w2).2.1).waypoint_index = e2.waypoint_index) ∧
    (∀ dt2 e2 w2, ((DoSeekFood dt2 e2 w2).2.1).waypoint_index = e2.waypoint_index) := by
  obtain ⟨hw, hcases⟩ := demoTree_waypoint_cases dt e w
  refine ⟨?_, hw, by omega, fun dt2 e2 w2 => rfl,
    fun dt2 e2 w2 => by rw [ThreatNearby_state],
    fun dt2 e2 w2 => by obtain ⟨b, hb⟩ := CheckHunger_shape dt2 e2 w2; simp [hb],
    fun dt2 e2 w2 => rfl,
    fun dt2 e2 w2 => ?_, fun dt2 e2 w2 => ?_⟩
  · rcases hcases with h | h
    · rw [h]; exact ⟨h0, h1⟩
    · rw [h]
      have hlen : (0 : Int) < (w.waypoints.length : Int) := by omega
      exact ⟨Int.tmod_nonneg _ (by omega), Int.tmod_lt_of_pos _ hlen⟩
  · unfold MoveToCorner
    dsimp only
    split <;> rfl
  · unfold DoSeekFood
    dsimp only
    split <;> rfl

/-- C10 witness: a fresh agent (`waypoint_index` 0) in the default four-waypoint
world satisfies the bounds hypothesis, and the invariant conclusion follows. -/
theorem demoTree_waypoint_invariant_witness :
    (0 ≤ ({} : Entity).waypoint_index ∧
      ({} : Entity).waypoint_index < ((({} : World).waypoints.length : Int))) ∧
    ((0 ≤ (DemoTree.root 0 {} {}).self.waypoint_index ∧
      (DemoTree.root 0 {} {}).self.waypoint_index < ((({} : World).waypoints.length : Int))) ∧
    (DemoTree.root 0 {} {}).world = {} ∧
    ({} : Entity).waypoint_index.toNat < ({} : World).waypoints.length ∧
    (∀ dt2 e2 w2, ((AdvanceCorner dt2 e2 w2).2.1).waypoint_index =
      Int.tmod (e2.waypoint_index + 1) (w2.waypoints.length : Int)) ∧
    (∀ dt2 e2 w2, ((ThreatNearby dt2 e2 w2).2.1).waypoint_index = e2.waypoint_index) ∧
    (∀ dt2 e2 w2, ((CheckHunger dt2 e2 w2).2.1).waypoint_index = e2.waypoint_index) ∧
    (∀ dt2 e2 w2, ((DoFlee dt2 e2 w2).2.1).waypoint_index = e2.waypoint_index) ∧
    (∀ dt2 e2 w2, ((MoveToCorner dt2 e2 w2).2.1).waypoint_index = e2.waypoint_index) ∧
    (∀ dt2 e2 w2, ((DoSeekFood dt2 e2 w2).2.1).waypoint_index = e2.waypoint_index)) :=
  ⟨by simp, demoTree_waypoint_invariant 0 {} {} (by simp) (by simp)⟩

/-- A tree whose single stateful composite drives its memory slot to index 2 in
one tick: two always-succeeding children followed by an always-running child
(the shape of main.cpp's `patrolSeq` with `runForever`). -/
def slotDrivingTree : NodeFn :=
  MemorySequence.tick 0
    [Leaf.tick fun _ e w => (Status.Success, e, w),
     Leaf.tick fun _ e w => (Status.Success, e, w),
     Leaf.tick fun _ e w => (Status.Running, e, w)]

/-- C5 witness: two fresh agents share `slotDrivingTree`; ticking agent 0 drives
its slot to 2 while agent 1's entry — slot still 0 — is untouched. -/
theorem tick_isolates_other_agents_witness :
    (1 : Nat) ≠ 0 ∧
    (tick_agent slotDrivingTree 0 [{}, {}] 0 {}).1.get? 1 = ([{}, {}] : List Entity).get? 1 ∧
    getSlot ((tick_agent slotDrivingTree 0 [{}, {}] 0 {}).1.getD 0 {}) 0 = 2 ∧
    getSlot (([{}, {}] : List Entity).getD 1 {}) 0 = 0 :=
  ⟨by decide, tick_isolates_other_agents slotDrivingTree 0 [{}, {}] 0 1 {} (by decide),
    by rfl, by rfl⟩

end BT
